import Mathlib

/-!
Verification of the booking concurrency and interval-consistency engine of the
Bookingpms repository, as a shallow embedding in Lean.

Modelling conventions:
* A JavaScript `Date` value is `JsDate := Option Int` (milliseconds since the
  epoch); `none` stands for an Invalid Date (`NaN` time value).  Every JS
  relational comparison involving `NaN` evaluates to `false`, which is captured
  by the `jsLt`/`jsLe`/`jsGt`/`jsGe` functions below.
* JavaScript numbers used for money are modelled as rationals; `toFixed(2)`
  followed by `parseFloat` is modelled as rounding half-up to a multiple of
  `1/100` (`round2`).
* The Prisma store is a record of lists (`Store`); `findFirst`/`findUnique`
  become `List.find?`, `create` appends, `update`/`delete` map/filter.
  Rows written by side-effect services (notifications, message logs, audit
  logs) are modelled as an `events : List String` trace.
* Side-effect collaborators (NotificationService, MessageService,
  AuditService.log) may fail at runtime; an `FxOutcome` record says which of
  them succeed during one service call.  `try { ... } catch { log }` call
  sites in the services are modelled by appending the event only on success
  and never propagating a failure; `AuditService.log` swallows its own
  failures internally (src/src/services/auditService.js, lines 13-29), so it
  never throws at its call sites.
-/

namespace Bookingpms

/-- A JavaScript `Date`: `some t` is a valid date with epoch-milliseconds `t`,
`none` is an Invalid Date. -/
abbrev JsDate := Option Int

/-- JS `<` on dates: false whenever either side is Invalid. -/
def jsLt : JsDate → JsDate → Bool
  | some a, some b => a < b
  | _, _ => false

/-- JS `<=` on dates: false whenever either side is Invalid. -/
def jsLe : JsDate → JsDate → Bool
  | some a, some b => a ≤ b
  | _, _ => false

/-- JS `>` on dates: false whenever either side is Invalid. -/
def jsGt : JsDate → JsDate → Bool
  | some a, some b => b < a
  | _, _ => false

/-- JS `>=` on dates: false whenever either side is Invalid. -/
def jsGe : JsDate → JsDate → Bool
  | some a, some b => b ≤ a
  | _, _ => false

/-- `timeRangesOverlap` from src/unnamed/part_010 (utils/helpers.js), lines
21-28: `s1 < e2 && s2 < e1` after converting each argument to its time
value. -/
def timeRangesOverlap (s1 e1 s2 e2 : JsDate) : Bool :=
  jsLt s1 e2 && jsLt s2 e1

/-- Rounding of a rational to two decimal places: the model of
`parseFloat(x.toFixed(2))`. -/
def round2 (x : ℚ) : ℚ :=
  ((⌊x * 100 + 1 / 2⌋ : ℤ) : ℚ) / 100

/-- `calculateBookingPrice` from src/unnamed/part_010 (utils/helpers.js),
lines 11-16: `(end - start) / 3600000` hours times the hourly rate, rounded
to two decimals.  The function performs no interval validation. -/
def calculateBookingPrice (startMs endMs : Int) (pricePerHour : ℚ) : ℚ :=
  round2 (((endMs - startMs : Int) : ℚ) / 3600000 * pricePerHour)

/-- The three-clause overlap test appearing verbatim in the Prisma `where`
conditions of `BookingService.checkBookingOverlap`,
`BookingService.checkBlockOverlap`, the in-transaction re-check of
`BookingService.createBooking`, and both queries of
`BlockService.createBlock`: stored interval (s, e) against candidate
interval (S, E) is
`(s ≤ S ∧ e > S) ∨ (s < E ∧ e ≥ E) ∨ (s ≥ S ∧ e ≤ E)`. -/
def overlapClause (storedStart storedEnd candStart candEnd : JsDate) : Bool :=
  (jsLe storedStart candStart && jsGt storedEnd candStart) ||
  (jsLt storedStart candEnd && jsGe storedEnd candEnd) ||
  (jsGe storedStart candStart && jsLe storedEnd candEnd)

/-- Booking status (prisma schema / service code). -/
inductive BStatus where
  | PENDING
  | CONFIRMED
  | CANCELLED
  | COMPLETED
deriving DecidableEq, Repr

/-- Resource status (prisma schema / service code). -/
inductive RStatus where
  | AVAILABLE
  | UNAVAILABLE
  | MAINTENANCE
deriving DecidableEq, Repr

/-- A row of the Booking table. -/
structure Booking where
  id : Nat
  userId : Nat
  resourceId : Nat
  startTime : JsDate
  endTime : JsDate
  totalPrice : Option ℚ
  status : BStatus
  notes : Option String
deriving DecidableEq, Repr

/-- A row of the Resource table (the fields the core reads). -/
structure Resource where
  id : Nat
  status : RStatus
  pricePerHour : ℚ
  name : String
deriving DecidableEq, Repr

/-- A row of the ResourceBlock table. -/
structure ResourceBlock where
  id : Nat
  resourceId : Nat
  startTime : JsDate
  endTime : JsDate
  reason : Option String
deriving DecidableEq, Repr

/-- The error shape thrown by the services: `{ statusCode, message }`. -/
structure Err where
  statusCode : Nat
  message : String
deriving DecidableEq, Repr

/-- The shared storage state: the tables the core mutates, a fresh-id
counter for generated row ids, and a trace of rows written by side-effect
services (notifications, message logs, audit logs). -/
structure Store where
  resources : List Resource
  bookings : List Booking
  blocks : List ResourceBlock
  events : List String
  nextId : Nat
deriving DecidableEq, Repr

/-- Which side-effect collaborators succeed during one service call. -/
structure FxOutcome where
  notifyOk : Bool
  messageOk : Bool
  auditOk : Bool
deriving DecidableEq, Repr

/-- A `try { await effect } catch { log }` call site, and likewise
`AuditService.log`'s internal catch: on success the effect records its row,
on failure nothing is recorded and no error propagates. -/
def fire (store : Store) (ok : Bool) (ev : String) : Store :=
  if ok then { store with events := store.events ++ [ev] } else store

/-- `BookingService.checkBookingOverlap` (bookingService.js, lines 17-49):
`prisma.booking.findFirst` with the three-clause overlap disjunction,
`status ≠ CANCELLED`, the resource filter and the optional excluded id;
returns whether a row was found. -/
def checkBookingOverlap (store : Store) (resourceId : Nat)
    (startT endT : JsDate) (excludeBookingId : Option Nat) : Bool :=
  (store.bookings.find? (fun b =>
    b.resourceId == resourceId &&
    !(b.status == BStatus.CANCELLED) &&
    overlapClause b.startTime b.endTime startT endT &&
    (match excludeBookingId with
     | some i => !(b.id == i)
     | none => true))).isSome

/-- `BookingService.checkBlockOverlap` (bookingService.js, lines 54-81):
`prisma.resourceBlock.findFirst` with the three-clause overlap
disjunction and the resource filter. -/
def checkBlockOverlap (store : Store) (resourceId : Nat)
    (startT endT : JsDate) : Bool :=
  (store.blocks.find? (fun bl =>
    bl.resourceId == resourceId &&
    overlapClause bl.startTime bl.endTime startT endT)).isSome

/-- Arguments of `BookingService.createBooking`. -/
structure BookingArgs where
  userId : Nat
  resourceId : Nat
  startTime : JsDate
  endTime : JsDate
  notes : Option String
deriving DecidableEq, Repr

/-- The `prisma.$transaction` body of `BookingService.createBooking`
(bookingService.js, lines 128-178): re-run the non-cancelled-booking
three-clause overlap query; if a row is found fail with 409 "This time
slot was just booked by another user" and insert nothing, otherwise insert
the new booking as CONFIRMED. -/
def txPhase (args : BookingArgs) (totalPrice : Option ℚ) (store : Store) :
    Except Err Booking × Store :=
  if (store.bookings.find? (fun b =>
      b.resourceId == args.resourceId &&
      !(b.status == BStatus.CANCELLED) &&
      overlapClause b.startTime b.endTime args.startTime args.endTime)).isSome
  then
    (Except.error ⟨409, "This time slot was just booked by another user"⟩,
      store)
  else
    let b : Booking :=
      { id := store.nextId, userId := args.userId,
        resourceId := args.resourceId, startTime := args.startTime,
        endTime := args.endTime, totalPrice := totalPrice,
        status := BStatus.CONFIRMED, notes := args.notes }
    (Except.ok b,
      { store with
          bookings := store.bookings ++ [b]
          nextId := store.nextId + 1 })

/-- The price of a booking as computed inside `createBooking`:
`calculateBookingPrice(startTime, endTime, resource.pricePerHour)`;
`none` models the NaN produced when either date is invalid. -/
def jsPrice (s e : JsDate) (pricePerHour : ℚ) : Option ℚ :=
  match s, e with
  | some a, some b => some (calculateBookingPrice a b pricePerHour)
  | _, _ => none

/-- The three best-effort side effects of a successful `createBooking`
(bookingService.js, lines 180-215): notification, confirmation message,
audit record, each isolated by try/catch. -/
def bookingEffects (fx : FxOutcome) (store : Store) : Store :=
  fire (fire (fire store fx.notifyOk "notify:bookingCreated")
    fx.messageOk "message:bookingConfirmation") fx.auditOk
    "audit:BOOKING_CREATE"

/-- Everything `BookingService.createBooking` does after its two input
validations (bookingService.js, lines 99-217): resource lookup and status
check, block pre-check, booking pre-check, price computation, the atomic
transaction, then the best-effort side effects. -/
def storagePhase (args : BookingArgs) (fx : FxOutcome) (store : Store) :
    Except Err Booking × Store :=
  match store.resources.find? (fun r => r.id == args.resourceId) with
  | none => (Except.error ⟨404, "Resource not found"⟩, store)
  | some resource =>
    if !(resource.status == RStatus.AVAILABLE) then
      (Except.error ⟨400, "Resource is not available for booking"⟩, store)
    else if checkBlockOverlap store args.resourceId args.startTime
        args.endTime then
      (Except.error ⟨409, "This time slot is blocked"⟩, store)
    else if checkBookingOverlap store args.resourceId args.startTime
        args.endTime none then
      (Except.error ⟨409, "This time slot is already booked"⟩, store)
    else
      let totalPrice := jsPrice args.startTime args.endTime
        resource.pricePerHour
      match txPhase args totalPrice store with
      | (Except.error e, s2) => (Except.error e, s2)
      | (Except.ok b, s2) => (Except.ok b, bookingEffects fx s2)

/-- `BookingService.createBooking` (bookingService.js, lines 86-218):
validate `start >= end` (400 "End time must be after start time") then
`start < new Date()` (400 "Cannot book in the past") before any storage
access, then run the storage phase. -/
def createBooking (now : Int) (args : BookingArgs) (fx : FxOutcome)
    (store : Store) : Except Err Booking × Store :=
  if jsGe args.startTime args.endTime then
    (Except.error ⟨400, "End time must be after start time"⟩, store)
  else if jsLt args.startTime (some now) then
    (Except.error ⟨400, "Cannot book in the past"⟩, store)
  else storagePhase args fx store

/-- The best-effort side effects of a successful `cancelBooking`
(bookingService.js, lines 248-282). -/
def cancelEffects (fx : FxOutcome) (store : Store) : Store :=
  fire (fire (fire store fx.notifyOk "notify:bookingCancelled")
    fx.messageOk "message:bookingCancellation") fx.auditOk
    "audit:BOOKING_CANCEL"

/-- `BookingService.cancelBooking` (bookingService.js, lines 223-285):
look up the booking (404), check ownership unless admin (403), reject an
already-CANCELLED booking (400), otherwise set the status to CANCELLED
(row retained) and fire the best-effort side effects. -/
def cancelBooking (bookingId userId : Nat) (isAdmin : Bool)
    (fx : FxOutcome) (store : Store) : Except Err Booking × Store :=
  match store.bookings.find? (fun b => b.id == bookingId) with
  | none => (Except.error ⟨404, "Booking not found"⟩, store)
  | some booking =>
    if !isAdmin && !(booking.userId == userId) then
      (Except.error ⟨403, "Not authorized to cancel this booking"⟩, store)
    else if booking.status == BStatus.CANCELLED then
      (Except.error ⟨400, "Booking is already cancelled"⟩, store)
    else
      (Except.ok { booking with status := BStatus.CANCELLED },
        cancelEffects fx
          { store with bookings := store.bookings.map (fun b =>
              if b.id == bookingId then { b with status := BStatus.CANCELLED }
              else b) })

/-- Arguments of `BlockService.createBlock`. -/
structure BlockArgs where
  resourceId : Nat
  startTime : JsDate
  endTime : JsDate
  reason : Option String
deriving DecidableEq, Repr

/-- `BlockService.createBlock` (blockService.js, lines 14-125): validate
`start >= end`, look up the resource (404), reject when a non-cancelled
booking satisfies the three-clause overlap query (409 "Cannot block time
slot with existing bookings"), reject when an existing block does (409
"Block overlaps with existing block"), otherwise insert the block and emit
the audit record (`AuditService.log` swallows its own failures). -/
def createBlock (args : BlockArgs) (userId : Nat) (fx : FxOutcome)
    (store : Store) : Except Err ResourceBlock × Store :=
  if jsGe args.startTime args.endTime then
    (Except.error ⟨400, "End time must be after start time"⟩, store)
  else
    match store.resources.find? (fun r => r.id == args.resourceId) with
    | none => (Except.error ⟨404, "Resource not found"⟩, store)
    | some _resource =>
      if (store.bookings.find? (fun b =>
          b.resourceId == args.resourceId &&
          !(b.status == BStatus.CANCELLED) &&
          overlapClause b.startTime b.endTime args.startTime
            args.endTime)).isSome then
        (Except.error ⟨409, "Cannot block time slot with existing bookings"⟩,
          store)
      else if (store.blocks.find? (fun bl =>
          bl.resourceId == args.resourceId &&
          overlapClause bl.startTime bl.endTime args.startTime
            args.endTime)).isSome then
        (Except.error ⟨409, "Block overlaps with existing block"⟩, store)
      else
        let bl : ResourceBlock :=
          { id := store.nextId, resourceId := args.resourceId,
            startTime := args.startTime, endTime := args.endTime,
            reason := args.reason }
        (Except.ok bl,
          fire { store with
              blocks := store.blocks ++ [bl]
              nextId := store.nextId + 1 }
            fx.auditOk "audit:BLOCK_CREATE")

/-- `BlockService.deleteBlock` (blockService.js, lines 130-163): look up
the block (404), delete it, emit the audit record. -/
def deleteBlock (blockId userId : Nat) (fx : FxOutcome) (store : Store) :
    Except Err String × Store :=
  match store.blocks.find? (fun bl => bl.id == blockId) with
  | none => (Except.error ⟨404, "Block not found"⟩, store)
  | some _bl =>
    (Except.ok "Block deleted successfully",
      fire { store with blocks :=
          store.blocks.filter (fun bl => !(bl.id == blockId)) }
        fx.auditOk "audit:BLOCK_DELETE")

/-- One invocation of any of the four core operations. -/
inductive Op where
  | create (now : Int) (args : BookingArgs) (fx : FxOutcome)
  | cancel (bookingId userId : Nat) (isAdmin : Bool) (fx : FxOutcome)
  | block (args : BlockArgs) (userId : Nat) (fx : FxOutcome)
  | unblock (blockId userId : Nat) (fx : FxOutcome)

/-- The state after running one core operation (the operation's result is
dropped; a failing operation leaves the store unchanged). -/
def applyOp : Op → Store → Store
  | Op.create now args fx, s => (createBooking now args fx s).2
  | Op.cancel bid uid adm fx, s => (cancelBooking bid uid adm fx s).2
  | Op.block args uid fx, s => (createBlock args uid fx s).2
  | Op.unblock bid uid fx, s => (deleteBlock bid uid fx s).2

/-- An initial store: arbitrary resources (resource CRUD is outside the
core), no bookings, no blocks. -/
def initStore (rs : List Resource) (n : Nat) : Store :=
  { resources := rs, bookings := [], blocks := [], events := [], nextId := n }

/-- States reachable from an initial store by sequential core
operations. -/
inductive Reachable : Store → Prop where
  | init (rs : List Resource) (n : Nat) : Reachable (initStore rs n)
  | step (op : Op) (s : Store) : Reachable s → Reachable (applyOp op s)

/-- One contender in a `createBooking` race on a fixed resource: its
per-call arguments together with the price it computed before entering the
transaction. -/
structure TxCall where
  userId : Nat
  startTime : JsDate
  endTime : JsDate
  totalPrice : Option ℚ
  notes : Option String
deriving DecidableEq, Repr

/-- The booking arguments of a race contender on resource `rid`. -/
def txArgs (rid : Nat) (c : TxCall) : BookingArgs :=
  { userId := c.userId, resourceId := rid, startTime := c.startTime,
    endTime := c.endTime, notes := c.notes }

/-- N concurrent `createBooking` transactions as serialized by the storage
layer's isolation guarantee: each transaction body (`txPhase`,
bookingService.js lines 128-178) runs atomically, in some order, against
the store left by the previously committed one. -/
def runTxs (rid : Nat) (calls : List TxCall) (store : Store) :
    List (Except Err Booking) × Store :=
  match calls with
  | [] => ([], store)
  | c :: cs =>
    match txPhase (txArgs rid c) c.totalPrice store with
    | (r, s2) =>
      match runTxs rid cs s2 with
      | (rs, s3) => (r :: rs, s3)

/-- One entry of the external day-granularity availability feed, after the
field coalescing done at the top of the loop body of
`CloudbedsService.getAvailableGaps` (src/unnamed/part_009, lines 432-436):
`date` is `day.date || day.Date || day.checkInDate` (`none` when all are
missing or falsy) and `roomsAvailable` is
`day.roomsAvailable || day.rooms_available || day.availableRooms || 0`. -/
structure FeedDay where
  date : Option String
  roomsAvailable : Nat
deriving DecidableEq, Repr

/-- A derived availability gap (the accumulator/output shape of
`getAvailableGaps`). -/
structure Gap where
  startDate : String
  endDate : String
  nights : Nat
  roomsAvailable : Nat
deriving DecidableEq, Repr

/-- Closing the current gap: emit it iff its night count reaches
`minNights`. -/
def flushGap (minNights : Nat) : Option Gap → List Gap
  | some g => if minNights ≤ g.nights then [g] else []
  | none => []

/-- The scan loop of `CloudbedsService.getAvailableGaps`
(src/unnamed/part_009, lines 429-463), with the `gaps` accumulator made
into the result and `currentGap` into the second argument: skip entries
with no date; an available day opens or extends the current gap
(incrementing the night count and taking the minimum rooms-available); a
zero-availability day closes it, emitting it when long enough; the gap
still open at the end is flushed under the same threshold. -/
def getAvailableGapsLoop (minNights : Nat) :
    List FeedDay → Option Gap → List Gap
  | [], cur => flushGap minNights cur
  | d :: ds, cur =>
    match d.date with
    | none => getAvailableGapsLoop minNights ds cur
    | some date =>
      if 0 < d.roomsAvailable then
        match cur with
        | none =>
          getAvailableGapsLoop minNights ds
            (some { startDate := date, endDate := date, nights := 1,
                    roomsAvailable := d.roomsAvailable })
        | some g =>
          getAvailableGapsLoop minNights ds
            (some { startDate := g.startDate, endDate := date,
                    nights := g.nights + 1,
                    roomsAvailable := min g.roomsAvailable d.roomsAvailable })
      else
        flushGap minNights cur ++ getAvailableGapsLoop minNights ds none

/-- The gaps list returned by `CloudbedsService.getAvailableGaps` (the
`data` field of its response envelope). -/
def getAvailableGaps (days : List FeedDay) (minNights : Nat) : List Gap :=
  getAvailableGapsLoop minNights days none

/-- Modelled from the spec (4.7): the days that survive the skip of
entries lacking a date field, as (date, roomsAvailable) pairs in input
order. -/
def datedDays (days : List FeedDay) : List (String × Nat) :=
  days.filterMap (fun d => d.date.map (fun x => (x, d.roomsAvailable)))

/-- Modelled from the spec (4.7): the gap carried by a run of available
days `d :: run` — first date, last date, night count, and minimum
rooms-available across the run. -/
def mkGap (d : String × Nat) (run : List (String × Nat)) : Gap :=
  { startDate := d.1,
    endDate := run.foldl (fun _ x => x.1) d.1,
    nights := run.length + 1,
    roomsAvailable := run.foldl (fun m x => min m x.2) d.2 }

/-- Modelled from the spec (4.7): emit, in input order, exactly the maximal
runs of consecutive days with `roomsAvailable > 0` whose night count
reaches `minNights`, each as its `mkGap`. -/
def gapsSpec (minNights : Nat) : List (String × Nat) → List Gap
  | [] => []
  | d :: ds =>
    if 0 < d.2 then
      (if minNights ≤ (ds.takeWhile (fun x => 0 < x.2)).length + 1 then
        [mkGap d (ds.takeWhile (fun x => 0 < x.2))] else []) ++
      gapsSpec minNights (ds.dropWhile (fun x => 0 < x.2))
    else gapsSpec minNights ds
termination_by l => l.length
decreasing_by
  · have := (List.dropWhile_sublist (l := ds)
      (p := fun x => decide (0 < x.2))).length_le
    simp only [List.length_cons]
    omega
  · simp [List.length_cons]

/-- Extending the current gap with an available day (the `else` branch at
src/unnamed/part_009, lines 448-452). -/
def extGap (g : Gap) (d : String × Nat) : Gap :=
  { startDate := g.startDate, endDate := d.1, nights := g.nights + 1,
    roomsAvailable := min g.roomsAvailable d.2 }

/-- The scan loop restated on the dated entries (the entries that survive
the missing-date skip); bridge between `getAvailableGapsLoop` and
`gapsSpec`. -/
def loopP (minNights : Nat) : List (String × Nat) → Option Gap → List Gap
  | [], cur => flushGap minNights cur
  | d :: ds, cur =>
    if 0 < d.2 then
      match cur with
      | none =>
        loopP minNights ds
          (some { startDate := d.1, endDate := d.1, nights := 1,
                  roomsAvailable := d.2 })
      | some g => loopP minNights ds (some (extGap g d))
    else flushGap minNights cur ++ loopP minNights ds none

/-- The five-day feed of the spec's gap-derivation example. -/
def exampleDays : List FeedDay :=
  [⟨some "2026-01-01", 2⟩, ⟨some "2026-01-02", 1⟩, ⟨some "2026-01-03", 0⟩,
   ⟨some "2026-01-04", 3⟩, ⟨some "2026-01-05", 3⟩]

/-- The booking row inserted by a winning transaction of contender `c` on
resource `rid` when the store's fresh id is `n`. -/
def newBooking (rid : Nat) (c : TxCall) (n : Nat) : Booking :=
  { id := n, userId := c.userId, resourceId := rid,
    startTime := c.startTime, endTime := c.endTime,
    totalPrice := c.totalPrice, status := BStatus.CONFIRMED,
    notes := c.notes }

/-- A COMPLETED booking (the status the core never produces itself but the
data model admits). -/
def completedBooking : Booking :=
  { id := 0, userId := 5, resourceId := 1, startTime := some 0,
    endTime := some 10, totalPrice := some 125,
    status := BStatus.COMPLETED, notes := none }

/-- A store holding a single COMPLETED booking. -/
def storeWithCompleted : Store :=
  { resources := [⟨1, RStatus.AVAILABLE, 50, "Studio A"⟩],
    bookings := [completedBooking], blocks := [], events := [],
    nextId := 1 }

/-- A CONFIRMED booking. -/
def confirmedBooking : Booking :=
  { id := 0, userId := 5, resourceId := 1, startTime := some 0,
    endTime := some 10, totalPrice := some 125,
    status := BStatus.CONFIRMED, notes := none }

/-- A store holding a single CONFIRMED booking. -/
def storeWithConfirmed : Store :=
  { resources := [⟨1, RStatus.AVAILABLE, 50, "Studio A"⟩],
    bookings := [confirmedBooking], blocks := [], events := [],
    nextId := 1 }

/-- The non-cancelled bookings of a resource. -/
def activeOn (store : Store) (r : Nat) : List Booking :=
  store.bookings.filter (fun b =>
    b.resourceId == r && !(b.status == BStatus.CANCELLED))

/-- The blocks of a resource. -/
def blocksOn (store : Store) (r : Nat) : List ResourceBlock :=
  store.blocks.filter (fun bl => bl.resourceId == r)

/-- Interval-disjointness: on every resource the non-cancelled bookings are
pairwise non-overlapping, no block overlaps a non-cancelled booking, and
the blocks are pairwise non-overlapping (all in the sense of the
half-open-interval oracle `timeRangesOverlap`). -/
def Inv (store : Store) : Prop :=
  ∀ r : Nat,
    (activeOn store r).Pairwise (fun b1 b2 =>
      timeRangesOverlap b1.startTime b1.endTime b2.startTime b2.endTime
        = false) ∧
    (∀ bl ∈ blocksOn store r, ∀ b ∈ activeOn store r,
      timeRangesOverlap bl.startTime bl.endTime b.startTime b.endTime
        = false) ∧
    (blocksOn store r).Pairwise (fun x y =>
      timeRangesOverlap x.startTime x.endTime y.startTime y.endTime = false)

/-- The oracle implies the stored three-clause test, with no validity
hypotheses: any true `timeRangesOverlap` is detected by `overlapClause`. -/
theorem timeRangesOverlap_imp_overlapClause (s1 e1 s2 e2 : JsDate)
    (h : timeRangesOverlap s1 e1 s2 e2 = true) :
    overlapClause s1 e1 s2 e2 = true := by
  cases s1 with
  | none => simp [timeRangesOverlap, jsLt] at h
  | some a =>
    cases e1 with
    | none => simp [timeRangesOverlap, jsLt] at h
    | some b =>
      cases s2 with
      | none => simp [timeRangesOverlap, jsLt] at h
      | some c =>
        cases e2 with
        | none => simp [timeRangesOverlap, jsLt] at h
        | some d =>
          simp only [timeRangesOverlap, jsLt, Bool.and_eq_true,
            decide_eq_true_eq] at h
          simp only [overlapClause, jsLe, jsGt, jsLt, jsGe, Bool.or_eq_true,
            Bool.and_eq_true, decide_eq_true_eq]
          omega

/-- Contrapositive form used in the invariant proofs. -/
theorem overlapClause_false_imp_no_overlap (s1 e1 s2 e2 : JsDate)
    (h : overlapClause s1 e1 s2 e2 = false) :
    timeRangesOverlap s1 e1 s2 e2 = false := by
  by_contra hc
  rw [Bool.not_eq_false] at hc
  simp [timeRangesOverlap_imp_overlapClause s1 e1 s2 e2 hc] at h

/-- The oracle is symmetric in its two intervals. -/
theorem timeRangesOverlap_symm (s1 e1 s2 e2 : JsDate) :
    timeRangesOverlap s1 e1 s2 e2 = timeRangesOverlap s2 e2 s1 e1 := by
  simp [timeRangesOverlap, Bool.and_comm]

theorem fire_bookings (s : Store) (ok : Bool) (ev : String) :
    (fire s ok ev).bookings = s.bookings := by
  unfold fire; split <;> rfl

theorem fire_blocks (s : Store) (ok : Bool) (ev : String) :
    (fire s ok ev).blocks = s.blocks := by
  unfold fire; split <;> rfl

theorem bookingEffects_bookings (fx : FxOutcome) (s : Store) :
    (bookingEffects fx s).bookings = s.bookings := by
  simp [bookingEffects, fire_bookings]

theorem bookingEffects_blocks (fx : FxOutcome) (s : Store) :
    (bookingEffects fx s).blocks = s.blocks := by
  simp [bookingEffects, fire_blocks]

theorem cancelEffects_bookings (fx : FxOutcome) (s : Store) :
    (cancelEffects fx s).bookings = s.bookings := by
  simp [cancelEffects, fire_bookings]

theorem cancelEffects_blocks (fx : FxOutcome) (s : Store) :
    (cancelEffects fx s).blocks = s.blocks := by
  simp [cancelEffects, fire_blocks]

/-- The invariant only looks at the booking and block tables. -/
theorem Inv_of_eq_tables {s t : Store} (hb : t.bookings = s.bookings)
    (hbl : t.blocks = s.blocks) (h : Inv s) : Inv t := by
  have ha : activeOn t = activeOn s := by
    funext r; simp [activeOn, hb]
  have hb2 : blocksOn t = blocksOn s := by
    funext r; simp [blocksOn, hbl]
  intro r
  rw [ha, hb2]
  exact h r

/-- An unsuccessful `findFirst` bounds every row. -/
theorem find?_forall_false {α : Type} {l : List α} {p : α → Bool}
    (h : (l.find? p).isSome = false) : ∀ x ∈ l, p x = false := by
  intro x hx
  have hn : l.find? p = none := by
    cases hfp : l.find? p with
    | none => rfl
    | some v => rw [hfp] at h; simp at h
  have := List.find?_eq_none.mp hn x hx
  simpa using this

/-- Updating rows so that every row is either unchanged or fails the filter
can only shrink the filtered list. -/
theorem filter_map_sublist {α : Type} (l : List α) (f : α → α) (p : α → Bool)
    (hf : ∀ x, f x = x ∨ p (f x) = false) :
    ((l.map f).filter p).Sublist (l.filter p) := by
  induction l with
  | nil => simp
  | cons x l ih =>
    simp only [List.map_cons, List.filter_cons]
    rcases hf x with hx | hx
    · rw [hx]
      split
      · exact ih.cons₂ x
      · exact ih
    · rw [hx]
      simp only [Bool.false_eq_true, if_false]
      split
      · exact ih.cons x
      · exact ih

theorem mem_activeOn {store : Store} {r : Nat} {b : Booking} :
    b ∈ activeOn store r ↔
      b ∈ store.bookings ∧ b.resourceId = r ∧ b.status ≠ BStatus.CANCELLED := by
  simp [activeOn, List.mem_filter, and_assoc]

theorem mem_blocksOn {store : Store} {r : Nat} {bl : ResourceBlock} :
    bl ∈ blocksOn store r ↔ bl ∈ store.blocks ∧ bl.resourceId = r := by
  simp [blocksOn, List.mem_filter]

/-- Inserting a CONFIRMED booking that overlaps no active booking and no
block of its resource preserves the invariant. -/
theorem Inv_append_booking (store : Store) (b : Booking) (h : Inv store)
    (hstat : b.status = BStatus.CONFIRMED)
    (hnoov : ∀ x ∈ activeOn store b.resourceId,
      timeRangesOverlap x.startTime x.endTime b.startTime b.endTime = false)
    (hnobl : ∀ bl ∈ blocksOn store b.resourceId,
      timeRangesOverlap bl.startTime bl.endTime b.startTime b.endTime
        = false) :
    Inv { store with
      bookings := store.bookings ++ [b]
      nextId := store.nextId + 1 } := by
  intro r
  obtain ⟨h1, h2, h3⟩ := h r
  have hblocks : blocksOn { store with
      bookings := store.bookings ++ [b]
      nextId := store.nextId + 1 } r = blocksOn store r := rfl
  by_cases hr : b.resourceId = r
  · have hact : activeOn { store with
        bookings := store.bookings ++ [b]
        nextId := store.nextId + 1 } r = activeOn store r ++ [b] := by
      simp [activeOn, List.filter_append, hr, hstat]
    refine ⟨?_, ?_, ?_⟩
    · rw [hact, List.pairwise_append]
      refine ⟨h1, by simp, ?_⟩
      intro x hx y hy
      simp only [List.mem_singleton] at hy
      subst hy
      exact hnoov x (hr ▸ hx)
    · intro bl hbl x hx
      rw [hblocks] at hbl
      rw [hact, List.mem_append] at hx
      rcases hx with hx | hx
      · exact h2 bl hbl x hx
      · simp only [List.mem_singleton] at hx
        subst hx
        exact hnobl bl (hr ▸ hbl)
    · rw [hblocks]; exact h3
  · have hact : activeOn { store with
        bookings := store.bookings ++ [b]
        nextId := store.nextId + 1 } r = activeOn store r := by
      simp [activeOn, List.filter_append, hr]
    rw [hact, hblocks]
    exact ⟨h1, h2, h3⟩

/-- Inserting a block that overlaps no active booking and no block of its
resource preserves the invariant. -/
theorem Inv_append_block (store : Store) (bl : ResourceBlock) (h : Inv store)
    (hbk : ∀ x ∈ activeOn store bl.resourceId,
      timeRangesOverlap bl.startTime bl.endTime x.startTime x.endTime
        = false)
    (hob : ∀ x ∈ blocksOn store bl.resourceId,
      timeRangesOverlap x.startTime x.endTime bl.startTime bl.endTime
        = false) :
    Inv { store with
      blocks := store.blocks ++ [bl]
      nextId := store.nextId + 1 } := by
  intro r
  obtain ⟨h1, h2, h3⟩ := h r
  have hact : activeOn { store with
      blocks := store.blocks ++ [bl]
      nextId := store.nextId + 1 } r = activeOn store r := rfl
  by_cases hr : bl.resourceId = r
  · have hbls : blocksOn { store with
        blocks := store.blocks ++ [bl]
        nextId := store.nextId + 1 } r = blocksOn store r ++ [bl] := by
      simp [blocksOn, List.filter_append, hr]
    refine ⟨hact ▸ h1, ?_, ?_⟩
    · intro x hx b hb
      rw [hbls, List.mem_append] at hx
      rw [hact] at hb
      rcases hx with hx | hx
      · exact h2 x hx b hb
      · simp only [List.mem_singleton] at hx
        subst hx
        exact hbk b (hr ▸ hb)
    · rw [hbls, List.pairwise_append]
      refine ⟨h3, by simp, ?_⟩
      intro x hx y hy
      simp only [List.mem_singleton] at hy
      subst hy
      exact hob x (hr ▸ hx)
  · have hbls : blocksOn { store with
        blocks := store.blocks ++ [bl]
        nextId := store.nextId + 1 } r = blocksOn store r := by
      simp [blocksOn, List.filter_append, hr]
    rw [hact, hbls]
    exact ⟨h1, h2, h3⟩

/-- The in-transaction phase of `createBooking` preserves the invariant
whenever the pre-transaction block check came back clear. -/
theorem txPhase_preserves_Inv (args : BookingArgs) (tp : Option ℚ)
    (store : Store) (h : Inv store)
    (hblock : checkBlockOverlap store args.resourceId args.startTime
      args.endTime = false) :
    Inv (txPhase args tp store).2 := by
  unfold txPhase
  split
  · exact h
  · rename_i hfind
    have hfind2 : (store.bookings.find? (fun b =>
        b.resourceId == args.resourceId &&
        !(b.status == BStatus.CANCELLED) &&
        overlapClause b.startTime b.endTime args.startTime
          args.endTime)).isSome = false := by
      simpa using hfind
    apply Inv_append_booking _ _ h rfl
    · intro x hx
      obtain ⟨hmem, hres, hst⟩ := mem_activeOn.mp hx
      have ha : (x.resourceId == args.resourceId) = true := by simp [hres]
      have hb : (!(x.status == BStatus.CANCELLED)) = true := by simp [hst]
      have hpred := find?_forall_false hfind2 x hmem
      simp only [ha, hb, Bool.true_and] at hpred
      exact overlapClause_false_imp_no_overlap _ _ _ _ hpred
    · intro bl hbl
      obtain ⟨hmem, hres⟩ := mem_blocksOn.mp hbl
      have ha : (bl.resourceId == args.resourceId) = true := by simp [hres]
      have hbk : (store.blocks.find? (fun x =>
          x.resourceId == args.resourceId &&
          overlapClause x.startTime x.endTime args.startTime
            args.endTime)).isSome = false := hblock
      have hpred := find?_forall_false hbk bl hmem
      simp only [ha, Bool.true_and] at hpred
      exact overlapClause_false_imp_no_overlap _ _ _ _ hpred

/-- The storage phase of `createBooking` preserves the invariant. -/
theorem storagePhase_preserves_Inv (args : BookingArgs) (fx : FxOutcome)
    (store : Store) (h : Inv store) : Inv (storagePhase args fx store).2 := by
  unfold storagePhase
  split
  · exact h
  · rename_i resource heq0
    split
    · exact h
    · split
      · exact h
      · rename_i hblock
        split
        · exact h
        · have hblock2 : checkBlockOverlap store args.resourceId
              args.startTime args.endTime = false :=
            Bool.eq_false_iff.mpr hblock
          have htx := txPhase_preserves_Inv args
            (jsPrice args.startTime args.endTime resource.pricePerHour)
            store h hblock2
          dsimp only
          split
          · rename_i e s2 heq
            rw [heq] at htx
            exact htx
          · rename_i b s2 heq
            rw [heq] at htx
            exact Inv_of_eq_tables (bookingEffects_bookings fx s2)
              (bookingEffects_blocks fx s2) htx

/-- `createBooking` preserves the invariant. -/
theorem createBooking_preserves_Inv (now : Int) (args : BookingArgs)
    (fx : FxOutcome) (store : Store) (h : Inv store) :
    Inv (createBooking now args fx store).2 := by
  unfold createBooking
  split
  · exact h
  · split
    · exact h
    · exact storagePhase_preserves_Inv args fx store h

/-- `cancelBooking` preserves the invariant: the active set of every
resource only shrinks. -/
theorem cancelBooking_preserves_Inv (bid uid : Nat) (adm : Bool)
    (fx : FxOutcome) (store : Store) (h : Inv store) :
    Inv (cancelBooking bid uid adm fx store).2 := by
  unfold cancelBooking
  split
  · exact h
  · split
    · exact h
    · split
      · exact h
      · apply Inv_of_eq_tables (cancelEffects_bookings fx _)
          (cancelEffects_blocks fx _)
        intro r
        obtain ⟨h1, h2, h3⟩ := h r
        have hsub : (activeOn { store with
            bookings := store.bookings.map (fun b =>
              if b.id == bid then { b with status := BStatus.CANCELLED }
              else b) } r).Sublist (activeOn store r) := by
          unfold activeOn
          apply filter_map_sublist
          intro x
          cases hx : x.id == bid with
          | true =>
            right
            simp [hx]
          | false =>
            left
            simp [hx]
        refine ⟨List.Pairwise.sublist hsub h1, ?_, h3⟩
        intro bl hbl x hx
        exact h2 bl hbl x (hsub.subset hx)

/-- `createBlock` preserves the invariant. -/
theorem createBlock_preserves_Inv (args : BlockArgs) (uid : Nat)
    (fx : FxOutcome) (store : Store) (h : Inv store) :
    Inv (createBlock args uid fx store).2 := by
  unfold createBlock
  split
  · exact h
  · split
    · exact h
    · split
      · exact h
      · rename_i hbook
        split
        · exact h
        · rename_i hblock
          apply Inv_of_eq_tables (fire_bookings _ _ _) (fire_blocks _ _ _)
          apply Inv_append_block _ _ h
          · intro x hx
            obtain ⟨hmem, hres, hst⟩ := mem_activeOn.mp hx
            have ha : (x.resourceId == args.resourceId) = true := by
              simp [hres]
            have hb : (!(x.status == BStatus.CANCELLED)) = true := by
              simp [hst]
            have hpred := find?_forall_false
              (Bool.eq_false_iff.mpr hbook) x hmem
            simp only [ha, hb, Bool.true_and] at hpred
            rw [timeRangesOverlap_symm]
            exact overlapClause_false_imp_no_overlap _ _ _ _ hpred
          · intro x hx
            obtain ⟨hmem, hres⟩ := mem_blocksOn.mp hx
            have ha : (x.resourceId == args.resourceId) = true := by
              simp [hres]
            have hpred := find?_forall_false
              (Bool.eq_false_iff.mpr hblock) x hmem
            simp only [ha, Bool.true_and] at hpred
            exact overlapClause_false_imp_no_overlap _ _ _ _ hpred

/-- `deleteBlock` preserves the invariant: the block set only shrinks. -/
theorem deleteBlock_preserves_Inv (bid uid : Nat) (fx : FxOutcome)
    (store : Store) (h : Inv store) :
    Inv (deleteBlock bid uid fx store).2 := by
  unfold deleteBlock
  split
  · exact h
  · apply Inv_of_eq_tables (fire_bookings _ _ _) (fire_blocks _ _ _)
    intro r
    obtain ⟨h1, h2, h3⟩ := h r
    have hsub : (blocksOn
        { store with
          blocks := store.blocks.filter (fun bl => !(bl.id == bid)) }
        r).Sublist (blocksOn store r) := by
      unfold blocksOn
      exact (List.filter_sublist store.blocks).filter _
    refine ⟨h1, ?_, List.Pairwise.sublist hsub h3⟩
    intro bl hbl x hx
    exact h2 bl (hsub.subset hbl) x hx

/-- C3: overlap-oracle semantics.  For all valid instants `startA < endA` and
`startB < endB`, `timeRangesOverlap` returns true iff `startA < endB` and
`startB < endA` (half-open intervals); touching intervals do not overlap:
`overlaps(0,10,10,20) = false` and `overlaps(0,10,9,20) = true`. -/
theorem timeRangesOverlap_oracle_semantics :
    (∀ a b c d : Int, a < b → c < d →
      (timeRangesOverlap (some a) (some b) (some c) (some d) = true ↔
        a < d ∧ c < b)) ∧
    timeRangesOverlap (some 0) (some 10) (some 10) (some 20) = false ∧
    timeRangesOverlap (some 0) (some 10) (some 9) (some 20) = true := by
  refine ⟨?_, by decide, by decide⟩
  intro a b c d _ _
  simp [timeRangesOverlap, jsLt]

/-- Witness for C3: the oracle equivalence instantiated at the concrete
intervals [1,3) and [2,4). -/
theorem timeRangesOverlap_oracle_semantics_witness :
    timeRangesOverlap (some 1) (some 3) (some 2) (some 4) = true ↔
      (1 : Int) < 4 ∧ (2 : Int) < 3 :=
  timeRangesOverlap_oracle_semantics.1 1 3 2 4 (by decide) (by decide)

/-- C4: uniform overlap predicate.  The three-clause disjunction used by
`checkBookingOverlap`, the in-transaction re-check and `createBlock`'s
booking and block queries (all of which are `overlapClause` in this
embedding) is equivalent to the oracle predicate `s < E ∧ S < e` for every
stored interval `(s, e)` with `s < e` and candidate `(S, E)` with `S < E`. -/
theorem overlapClause_equiv_oracle (s e S E : Int)
    (hse : s < e) (hSE : S < E) :
    (overlapClause (some s) (some e) (some S) (some E) = true ↔
      s < E ∧ S < e) ∧
    overlapClause (some s) (some e) (some S) (some E) =
      timeRangesOverlap (some s) (some e) (some S) (some E) := by
  have hA : overlapClause (some s) (some e) (some S) (some E) = true ↔
      s < E ∧ S < e := by
    simp only [overlapClause, jsLe, jsGt, jsLt, jsGe, Bool.or_eq_true,
      Bool.and_eq_true, decide_eq_true_eq]
    omega
  have hB : timeRangesOverlap (some s) (some e) (some S) (some E) = true ↔
      s < E ∧ S < e := by
    simp [timeRangesOverlap, jsLt]
  exact ⟨hA, Bool.eq_iff_iff.mpr (hA.trans hB.symm)⟩

/-- Witness for C4: the equivalence instantiated at stored interval [0,10)
and candidate [5,15). -/
theorem overlapClause_equiv_oracle_witness :
    (overlapClause (some 0) (some 10) (some 5) (some 15) = true ↔
      (0 : Int) < 15 ∧ (5 : Int) < 10) ∧
    overlapClause (some 0) (some 10) (some 5) (some 15) =
      timeRangesOverlap (some 0) (some 10) (some 5) (some 15) :=
  overlapClause_equiv_oracle 0 10 5 15 (by decide) (by decide)

/-- C6 counterexample: `calculateBookingPrice` performs no interval
validation — at `end = start` (and hourly rate 50) it returns the value 0
rather than failing with `InvalidInterval`.  In the source the
`end <= start` rejection is performed by `createBooking`
(src/src/services/bookingService.js, line 91), not by the pricing
function. -/
theorem calculateBookingPrice_no_validation :
    calculateBookingPrice 1768035600000 1768035600000 50 = 0 := by
  norm_num [calculateBookingPrice, round2]

/-- C6 (amended): for every start, end and hourly rate,
`calculateBookingPrice` returns a value that is an exact multiple of a cent
and within half a cent of `(end - start in hours) × hourlyRate`; on the
spec's example (2026-01-10T09:00Z to 11:30Z at rate 50) it returns exactly
125; and when `end ≤ start` (with a nonnegative rate) it returns a
nonpositive number instead of failing — the `InvalidInterval` failure is
raised by `createBooking` before pricing, not by this function. -/
theorem calculateBookingPrice_contract :
    calculateBookingPrice 1768035600000 1768044600000 50 = 125 ∧
    ∀ (s e : Int) (r : ℚ),
      (∃ k : ℤ, calculateBookingPrice s e r = (k : ℚ) / 100) ∧
      |calculateBookingPrice s e r - ((e - s : Int) : ℚ) / 3600000 * r| ≤
        1 / 200 ∧
      (e ≤ s → 0 ≤ r → calculateBookingPrice s e r ≤ 0) := by
  constructor
  · norm_num [calculateBookingPrice, round2]
  intro s e r
  refine ⟨⟨⌊((e - s : Int) : ℚ) / 3600000 * r * 100 + 1 / 2⌋, rfl⟩, ?_, ?_⟩
  · set x : ℚ := ((e - s : Int) : ℚ) / 3600000 * r with hx
    have h1 : ((⌊x * 100 + 1 / 2⌋ : ℤ) : ℚ) ≤ x * 100 + 1 / 2 :=
      Int.floor_le _
    have h2 : x * 100 + 1 / 2 - 1 < ((⌊x * 100 + 1 / 2⌋ : ℤ) : ℚ) :=
      Int.sub_one_lt_floor _
    rw [abs_le]
    constructor
    · simp only [calculateBookingPrice, round2, ← hx]
      linarith
    · simp only [calculateBookingPrice, round2, ← hx]
      linarith
  · intro hes hr
    have hd : ((e - s : Int) : ℚ) / 3600000 ≤ 0 := by
      apply div_nonpos_of_nonpos_of_nonneg
      · exact_mod_cast sub_nonpos.mpr hes
      · norm_num
    have hx : ((e - s : Int) : ℚ) / 3600000 * r ≤ 0 :=
      mul_nonpos_of_nonpos_of_nonneg hd hr
    have hfl : ⌊((e - s : Int) : ℚ) / 3600000 * r * 100 + 1 / 2⌋ < 1 := by
      rw [Int.floor_lt]
      push_cast
      push_cast at hx
      linarith
    simp only [calculateBookingPrice, round2]
    apply div_nonpos_of_nonpos_of_nonneg
    · exact_mod_cast Int.lt_add_one_iff.mp hfl
    · norm_num

/-- Witness for C6 (amended): the nonpositivity clause instantiated at
start 3600000, end 0, rate 2. -/
theorem calculateBookingPrice_contract_witness :
    calculateBookingPrice 3600000 0 2 ≤ 0 :=
  (calculateBookingPrice_contract.2 3600000 0 2).2.2 (by decide) (by norm_num)

/-- C1: interval-disjointness invariant.  Every state reachable by any
sequential sequence of the core operations (`createBooking`,
`cancelBooking`, `createBlock`, `deleteBlock`) from an initial store with
no bookings and no blocks satisfies `Inv`: on every resource the
non-cancelled bookings are pairwise non-overlapping (half-open-interval
oracle), no block overlaps a non-cancelled booking, and the blocks are
pairwise non-overlapping. -/
theorem core_ops_preserve_interval_disjointness (s : Store)
    (h : Reachable s) : Inv s := by
  induction h with
  | init rs n =>
    intro r
    refine ⟨List.Pairwise.nil, ?_, List.Pairwise.nil⟩
    intro bl hbl
    simp [blocksOn, initStore] at hbl
  | step op s hs ih =>
    cases op with
    | create now args fx => exact createBooking_preserves_Inv now args fx s ih
    | cancel bid uid adm fx =>
      exact cancelBooking_preserves_Inv bid uid adm fx s ih
    | block args uid fx => exact createBlock_preserves_Inv args uid fx s ih
    | unblock bid uid fx => exact deleteBlock_preserves_Inv bid uid fx s ih

/-- Witness for C1: the invariant holds in the concrete state reached by
one successful `createBooking` on a one-resource initial store. -/
theorem core_ops_preserve_interval_disjointness_witness :
    Inv (applyOp
      (Op.create 0 ⟨5, 1, some 10, some 20, none⟩ ⟨true, true, true⟩)
      (initStore [⟨1, RStatus.AVAILABLE, 50, "Studio A"⟩] 0)) :=
  core_ops_preserve_interval_disjointness _
    (Reachable.step _ _ (Reachable.init _ _))

/-- A transaction body finds any committed conflicting CONFIRMED booking
and fails without touching the store. -/
theorem txPhase_conflict (args : BookingArgs) (tp : Option ℚ)
    (store : Store) (b0 : Booking) (hmem : b0 ∈ store.bookings)
    (hres : b0.resourceId = args.resourceId)
    (hst : b0.status ≠ BStatus.CANCELLED)
    (hcl : overlapClause b0.startTime b0.endTime args.startTime args.endTime
      = true) :
    txPhase args tp store =
      (Except.error
        ⟨409, "This time slot was just booked by another user"⟩, store) := by
  unfold txPhase
  have hfound : (store.bookings.find? (fun b =>
      b.resourceId == args.resourceId &&
      !(b.status == BStatus.CANCELLED) &&
      overlapClause b.startTime b.endTime args.startTime
        args.endTime)).isSome = true := by
    rw [List.find?_isSome]
    exact ⟨b0, hmem, by simp [hres, hst, hcl]⟩
  rw [if_pos hfound]

/-- Once a conflicting CONFIRMED booking is committed, every remaining
serialized transaction fails with the race-lost conflict and the store no
longer changes. -/
theorem runTxs_all_conflict (rid : Nat) (cs : List TxCall) (store : Store)
    (b0 : Booking) (hmem : b0 ∈ store.bookings)
    (hres : b0.resourceId = rid) (hst : b0.status ≠ BStatus.CANCELLED)
    (hcl : ∀ c ∈ cs, overlapClause b0.startTime b0.endTime c.startTime
      c.endTime = true) :
    runTxs rid cs store = (cs.map (fun _ => Except.error
      ⟨409, "This time slot was just booked by another user"⟩), store) := by
  induction cs with
  | nil => rfl
  | cons c cs ih =>
    unfold runTxs
    rw [txPhase_conflict (txArgs rid c) c.totalPrice store b0 hmem hres hst
      (hcl c (List.mem_cons_self c cs))]
    dsimp only
    rw [ih (fun x hx => hcl x (List.mem_cons_of_mem c hx))]
    rfl

/-- C2: race resolution.  Among `N = 1 + |cs|` concurrent `createBooking`
transactions with pairwise-overlapping intervals on the same resource,
serialized in an arbitrary order by the storage layer's isolation and
starting from a store whose committed bookings conflict with none of them
(each call passed its pre-checks), exactly one transaction succeeds — the
first to commit — and every other one fails with the 409 race-lost
`SlotConflict`; no second booking is inserted. -/
theorem createBooking_race_resolution (rid : Nat) (c : TxCall)
    (cs : List TxCall) (store : Store)
    (hfree : ∀ x ∈ c :: cs, (store.bookings.find? (fun b =>
      b.resourceId == rid && !(b.status == BStatus.CANCELLED) &&
      overlapClause b.startTime b.endTime x.startTime x.endTime)).isSome
        = false)
    (hov : ∀ x ∈ c :: cs, ∀ y ∈ c :: cs,
      timeRangesOverlap x.startTime x.endTime y.startTime y.endTime = true) :
    ∃ b : Booking,
      (runTxs rid (c :: cs) store).1 =
        Except.ok b :: cs.map (fun _ => Except.error
          ⟨409, "This time slot was just booked by another user"⟩) := by
  have h0 := hfree c (List.mem_cons_self c cs)
  refine ⟨newBooking rid c store.nextId, ?_⟩
  have hstep : txPhase (txArgs rid c) c.totalPrice store =
      (Except.ok (newBooking rid c store.nextId),
       { store with
           bookings := store.bookings ++ [newBooking rid c store.nextId]
           nextId := store.nextId + 1 }) := by
    unfold txPhase
    rw [if_neg]
    · rfl
    · simp only [txArgs]
      rw [h0]
      simp
  unfold runTxs
  rw [hstep]
  dsimp only
  rw [runTxs_all_conflict rid cs _ (newBooking rid c store.nextId)
    (by simp) rfl (by simp [newBooking])
    (fun x hx => timeRangesOverlap_imp_overlapClause _ _ _ _
      (hov c (List.mem_cons_self c cs) x (List.mem_cons_of_mem c hx)))]

/-- Witness for C2: two concrete overlapping calls on resource 1 against an
empty store — the first transaction succeeds, the second receives the
race-lost conflict. -/
theorem createBooking_race_resolution_witness :
    ∃ b : Booking,
      (runTxs 1 [⟨7, some 0, some 10, some 5, none⟩,
        ⟨8, some 5, some 15, some 5, none⟩] (initStore [] 0)).1 =
        [Except.ok b, Except.error
          ⟨409, "This time slot was just booked by another user"⟩] := by
  have h := createBooking_race_resolution 1 ⟨7, some 0, some 10, some 5, none⟩
    [⟨8, some 5, some 15, some 5, none⟩] (initStore [] 0)
    (by decide) (by decide)
  simpa using h

/-- The feed loop coincides with the pair loop on the dated entries: a
day without a date is skipped without touching the current gap. -/
theorem loop_datedDays (m : Nat) (days : List FeedDay) :
    ∀ cur, getAvailableGapsLoop m days cur = loopP m (datedDays days) cur := by
  induction days with
  | nil => intro cur; rfl
  | cons d ds ih =>
    intro cur
    cases hdate : d.date with
    | none =>
      simp only [getAvailableGapsLoop, hdate, datedDays,
        List.filterMap_cons, Option.map_none']
      exact ih cur
    | some date =>
      simp only [getAvailableGapsLoop, hdate, datedDays,
        List.filterMap_cons, Option.map_some']
      by_cases hav : 0 < d.roomsAvailable
      · cases cur with
        | none => simp only [loopP, hav, if_true, if_pos hav]; exact ih _
        | some g =>
          simp only [loopP, hav, if_true, if_pos hav, extGap]
          exact ih _
      · simp only [loopP, hav, if_neg hav, if_false]
        rw [ih none]
        rfl

/-- Running the pair loop with an open gap consumes exactly the maximal
available prefix, extending the gap day by day, then closes it. -/
theorem loopP_some (m : Nat) (ds : List (String × Nat)) :
    ∀ g, loopP m ds (some g) =
      flushGap m (some (List.foldl extGap g
        (ds.takeWhile (fun x => 0 < x.2)))) ++
      loopP m (ds.dropWhile (fun x => 0 < x.2)) none := by
  induction ds with
  | nil =>
    intro g
    simp [loopP, List.takeWhile_nil, List.dropWhile_nil, flushGap]
  | cons d ds ih =>
    intro g
    by_cases hav : 0 < d.2
    · have hav2 : (decide (0 < d.2)) = true := by simpa using hav
      simp only [loopP, if_pos hav, List.takeWhile_cons, List.dropWhile_cons,
        hav2, if_true, List.foldl_cons]
      exact ih (extGap g d)
    · have hav2 : (decide (0 < d.2)) = false := by simpa using hav
      simp only [loopP, if_neg hav, List.takeWhile_cons, List.dropWhile_cons,
        hav2, Bool.false_eq_true, if_false, flushGap, List.nil_append,
        List.foldl_nil]

/-- Folding gap extension over a run computes first date, last date,
night count and bottleneck minimum. -/
theorem foldl_extGap (l : List (String × Nat)) :
    ∀ (s e : String) (n v : Nat),
      List.foldl extGap ⟨s, e, n, v⟩ l =
        ⟨s, l.foldl (fun _ x => x.1) e, n + l.length,
          l.foldl (fun w x => min w x.2) v⟩ := by
  induction l with
  | nil => intro s e n v; simp
  | cons d l ih =>
    intro s e n v
    simp [List.foldl_cons, extGap, ih, List.length_cons, Gap.mk.injEq]
    omega

/-- The pair loop started with no open gap computes exactly the spec's
maximal-run decomposition. -/
theorem loopP_none_eq_gapsSpec (m : Nat) : ∀ ds,
    loopP m ds none = gapsSpec m ds := by
  have key : ∀ n ds, List.length ds ≤ n → loopP m ds none = gapsSpec m ds := by
    intro n
    induction n with
    | zero =>
      intro ds hds
      cases ds with
      | nil => simp [loopP, gapsSpec, flushGap]
      | cons d ds => simp at hds
    | succ n ih =>
      intro ds hds
      cases ds with
      | nil => simp [loopP, gapsSpec, flushGap]
      | cons d ds =>
        by_cases hav : 0 < d.2
        · rw [show loopP m (d :: ds) none = loopP m ds
              (some ⟨d.1, d.1, 1, d.2⟩) from by simp [loopP, hav]]
          rw [loopP_some]
          have hlen : (ds.dropWhile (fun x => 0 < x.2)).length ≤ n := by
            have := (List.dropWhile_sublist
              (l := ds) (p := fun x => decide (0 < x.2))).length_le
            simp only [List.length_cons] at hds
            omega
          rw [ih _ hlen]
          have hfold : List.foldl extGap ⟨d.1, d.1, 1, d.2⟩
              (ds.takeWhile (fun x => 0 < x.2)) =
              mkGap d (ds.takeWhile (fun x => 0 < x.2)) := by
            rw [foldl_extGap]
            simp [mkGap, Nat.add_comm]
          rw [hfold]
          rw [show gapsSpec m (d :: ds) =
            (if m ≤ (ds.takeWhile (fun x => 0 < x.2)).length + 1 then
              [mkGap d (ds.takeWhile (fun x => 0 < x.2))] else []) ++
            gapsSpec m (ds.dropWhile (fun x => 0 < x.2)) from by
              rw [gapsSpec]; simp [hav]]
          congr 1
        · rw [show loopP m (d :: ds) none = loopP m ds none from by
            simp [loopP, hav, flushGap]]
          rw [show gapsSpec m (d :: ds) = gapsSpec m ds from by
            rw [gapsSpec]; simp [hav]]
          exact ih ds (by simp only [List.length_cons] at hds; omega)
  intro ds
  exact key ds.length ds le_rfl

/-- C5: gap derivation.  For every day sequence and `minNights`,
`getAvailableGaps` skips entries lacking a date field and then emits, in
input order, exactly the maximal runs of consecutive remaining days with
`roomsAvailable > 0` whose night count is at least `minNights`, each gap
carrying the run's first date, last date, night count, and minimum
rooms-available (a run still open at sequence end is flushed under the
same threshold); the spec's five-day example yields exactly the two stated
gaps with `minNights = 2` and the empty list with `minNights = 3`. -/
theorem getAvailableGaps_gap_derivation :
    (∀ (days : List FeedDay) (minNights : Nat),
      getAvailableGaps days minNights =
        gapsSpec minNights (datedDays days)) ∧
    getAvailableGaps exampleDays 2 =
      [⟨"2026-01-01", "2026-01-02", 2, 1⟩,
       ⟨"2026-01-04", "2026-01-05", 2, 3⟩] ∧
    getAvailableGaps exampleDays 3 = [] := by
  refine ⟨?_, by decide, by decide⟩
  intro days m
  rw [getAvailableGaps, loop_datedDays, loopP_none_eq_gapsSpec]

/-- `cancelBooking` on a found, authorized booking whose status is not
CANCELLED: it sets the status to CANCELLED and keeps the row. -/
theorem cancelBooking_success (store : Store) (bid uid : Nat) (adm : Bool)
    (fx : FxOutcome) (booking : Booking)
    (hfind : store.bookings.find? (fun b => b.id == bid) = some booking)
    (hguard : (!adm && !(booking.userId == uid)) = false)
    (hst : (booking.status == BStatus.CANCELLED) = false) :
    cancelBooking bid uid adm fx store =
      (Except.ok { booking with status := BStatus.CANCELLED },
       cancelEffects fx
         { store with bookings := store.bookings.map (fun b =>
             if b.id == bid then { b with status := BStatus.CANCELLED }
             else b) }) := by
  unfold cancelBooking
  rw [hfind]
  dsimp only
  rw [if_neg (by simp [hguard]), if_neg (by simp [hst])]

/-- `cancelBooking` on a found, authorized booking whose status is already
CANCELLED fails with the 400 "Booking is already cancelled" error and
leaves the store untouched. -/
theorem cancelBooking_already (store : Store) (bid uid : Nat) (adm : Bool)
    (fx : FxOutcome) (booking : Booking)
    (hfind : store.bookings.find? (fun b => b.id == bid) = some booking)
    (hguard : (!adm && !(booking.userId == uid)) = false)
    (hst : (booking.status == BStatus.CANCELLED) = true) :
    cancelBooking bid uid adm fx store =
      (Except.error ⟨400, "Booking is already cancelled"⟩, store) := by
  unfold cancelBooking
  rw [hfind]
  dsimp only
  rw [if_neg (by simp [hguard]), if_pos (by simp [hst])]

/-- The status-update write only touches the row with the cancelled id, so
looking that id up afterwards finds the updated row. -/
theorem find?_map_cancel (l : List Booking) (bid : Nat) :
    (l.map (fun b => if b.id == bid then { b with status := BStatus.CANCELLED }
      else b)).find? (fun b => b.id == bid) =
      (l.find? (fun b => b.id == bid)).map
        (fun b => { b with status := BStatus.CANCELLED }) := by
  have hid : ∀ b : Booking, ((if (b.id == bid) = true then
      { b with status := BStatus.CANCELLED } else b) : Booking).id = b.id := by
    intro b
    split <;> rfl
  rw [List.find?_map]
  have hcomp : ((fun b : Booking => b.id == bid) ∘ (fun b : Booking =>
      if b.id == bid then { b with status := BStatus.CANCELLED } else b)) =
      (fun b : Booking => b.id == bid) := by
    funext b
    simp only [Function.comp]
    rw [hid]
  rw [hcomp]
  cases hf : l.find? (fun b => b.id == bid) with
  | none => rfl
  | some b =>
    have hb := List.find?_some hf
    simp [Option.map, hb]

/-- C7 counterexample: `cancelBooking` transitions a COMPLETED booking to
CANCELLED — the guard only rejects status CANCELLED, so CANCELLED is
reachable from a source status other than PENDING and CONFIRMED,
contradicting the claim that only those two may reach CANCELLED. -/
theorem cancelBooking_completed_counterexample :
    completedBooking.status = BStatus.COMPLETED ∧
    (cancelBooking 0 5 false ⟨true, true, true⟩ storeWithCompleted).1 =
      Except.ok { completedBooking with status := BStatus.CANCELLED } := by
  constructor
  · rfl
  · rfl

/-- C7 (amended): `cancelBooking` transitions a booking to CANCELLED from
any source status other than CANCELLED — PENDING, CONFIRMED, and also
COMPLETED; cancelling a CANCELLED booking fails with `AlreadyCancelled`
(400) and leaves the store unchanged; and a successful cancellation
succeeds exactly once — repeating it yields `AlreadyCancelled`. -/
theorem cancelBooking_state_machine (store : Store) (bid uid : Nat)
    (adm : Bool) (fx : FxOutcome) (booking : Booking)
    (hfind : store.bookings.find? (fun b => b.id == bid) = some booking)
    (hauth : adm = true ∨ booking.userId = uid) :
    (booking.status = BStatus.CANCELLED →
      cancelBooking bid uid adm fx store =
        (Except.error ⟨400, "Booking is already cancelled"⟩, store)) ∧
    (booking.status ≠ BStatus.CANCELLED →
      (cancelBooking bid uid adm fx store).1 =
        Except.ok { booking with status := BStatus.CANCELLED } ∧
      (cancelBooking bid uid adm fx store).2.bookings =
        store.bookings.map (fun b =>
          if b.id == bid then { b with status := BStatus.CANCELLED }
          else b) ∧
      (cancelBooking bid uid adm fx
        ((cancelBooking bid uid adm fx store).2)).1 =
          Except.error ⟨400, "Booking is already cancelled"⟩) := by
  have hguard : (!adm && !(booking.userId == uid)) = false := by
    rcases hauth with h | h
    · simp [h]
    · simp [h]
  constructor
  · intro hst
    exact cancelBooking_already store bid uid adm fx booking hfind hguard
      (by simp [hst])
  · intro hst
    have hsucc := cancelBooking_success store bid uid adm fx booking hfind
      hguard (by simp [hst])
    refine ⟨by rw [hsucc], by rw [hsucc]; exact cancelEffects_bookings _ _, ?_⟩
    have hfind2 : ((cancelBooking bid uid adm fx store).2).bookings.find?
        (fun b => b.id == bid) =
        some { booking with status := BStatus.CANCELLED } := by
      rw [hsucc]
      dsimp only
      rw [cancelEffects_bookings]
      dsimp only
      rw [find?_map_cancel, hfind]
      rfl
    rw [cancelBooking_already _ bid uid adm fx _ hfind2 hguard rfl]

/-- Witness for C7 (amended): cancelling a concrete CONFIRMED booking
succeeds and sets CANCELLED; immediately cancelling it again fails with
the `AlreadyCancelled` error. -/
theorem cancelBooking_state_machine_witness :
    (cancelBooking 0 5 false ⟨true, true, true⟩ storeWithConfirmed).1 =
      Except.ok { confirmedBooking with status := BStatus.CANCELLED } ∧
    (cancelBooking 0 5 false ⟨true, true, true⟩
      ((cancelBooking 0 5 false ⟨true, true, true⟩ storeWithConfirmed).2)).1 =
      Except.error ⟨400, "Booking is already cancelled"⟩ := by
  have h := cancelBooking_state_machine storeWithConfirmed 0 5 false
    ⟨true, true, true⟩ confirmedBooking rfl (Or.inr rfl)
  have h2 := h.2 (by decide)
  exact ⟨h2.1, h2.2.2⟩

/-- C8: best-effort side effects.  For each of `createBooking`,
`cancelBooking` and `createBlock`, the outcome of the notification,
message and audit side effects influences neither the value returned to
the caller nor the booking and block tables: a side-effect failure is
swallowed, the operation still returns its success result, and the
primary write is neither rolled back nor failed. -/
theorem side_effects_best_effort :
    (∀ (fx fx2 : FxOutcome) (now : Int) (args : BookingArgs) (store : Store),
      (createBooking now args fx store).1 =
        (createBooking now args fx2 store).1 ∧
      (createBooking now args fx store).2.bookings =
        (createBooking now args fx2 store).2.bookings ∧
      (createBooking now args fx store).2.blocks =
        (createBooking now args fx2 store).2.blocks) ∧
    (∀ (fx fx2 : FxOutcome) (bid uid : Nat) (adm : Bool) (store : Store),
      (cancelBooking bid uid adm fx store).1 =
        (cancelBooking bid uid adm fx2 store).1 ∧
      (cancelBooking bid uid adm fx store).2.bookings =
        (cancelBooking bid uid adm fx2 store).2.bookings ∧
      (cancelBooking bid uid adm fx store).2.blocks =
        (cancelBooking bid uid adm fx2 store).2.blocks) ∧
    (∀ (fx fx2 : FxOutcome) (args : BlockArgs) (uid : Nat) (store : Store),
      (createBlock args uid fx store).1 =
        (createBlock args uid fx2 store).1 ∧
      (createBlock args uid fx store).2.bookings =
        (createBlock args uid fx2 store).2.bookings ∧
      (createBlock args uid fx store).2.blocks =
        (createBlock args uid fx2 store).2.blocks) := by
  refine ⟨?_, ?_, ?_⟩
  · intro fx fx2 now args store
    unfold createBooking storagePhase
    split
    · exact ⟨rfl, rfl, rfl⟩
    · split
      · exact ⟨rfl, rfl, rfl⟩
      · split
        · exact ⟨rfl, rfl, rfl⟩
        · split
          · exact ⟨rfl, rfl, rfl⟩
          · split
            · exact ⟨rfl, rfl, rfl⟩
            · split
              · exact ⟨rfl, rfl, rfl⟩
              · dsimp only
                split
                · exact ⟨rfl, rfl, rfl⟩
                · exact ⟨rfl, by simp [bookingEffects_bookings],
                    by simp [bookingEffects_blocks]⟩
  · intro fx fx2 bid uid adm store
    unfold cancelBooking
    split
    · exact ⟨rfl, rfl, rfl⟩
    · split
      · exact ⟨rfl, rfl, rfl⟩
      · split
        · exact ⟨rfl, rfl, rfl⟩
        · exact ⟨rfl, by simp [cancelEffects_bookings],
            by simp [cancelEffects_blocks]⟩
  · intro fx fx2 args uid store
    unfold createBlock
    split
    · exact ⟨rfl, rfl, rfl⟩
    · split
      · exact ⟨rfl, rfl, rfl⟩
      · split
        · exact ⟨rfl, rfl, rfl⟩
        · split
          · exact ⟨rfl, rfl, rfl⟩
          · exact ⟨rfl, by simp [fire_bookings], by simp [fire_blocks]⟩

/-- C9: fail-fast validation.  For every `createBooking` call with parsed
instants, `start ≥ end` fails with the `InvalidInterval` error and a valid
interval whose `start` precedes the current time fails with the
`PastBooking` error — in both cases for every store, which is left
untouched, regardless of whether the requested slot is free. -/
theorem createBooking_failfast_validation (now a b : Int)
    (args : BookingArgs) (fx : FxOutcome) (store : Store)
    (hstart : args.startTime = some a) (hend : args.endTime = some b) :
    (b ≤ a → createBooking now args fx store =
      (Except.error ⟨400, "End time must be after start time"⟩, store)) ∧
    (a < b → a < now → createBooking now args fx store =
      (Except.error ⟨400, "Cannot book in the past"⟩, store)) := by
  constructor
  · intro hba
    have hge : jsGe args.startTime args.endTime = true := by
      rw [hstart, hend]
      simpa [jsGe] using hba
    unfold createBooking
    rw [if_pos hge]
  · intro hab hnow
    have hge : jsGe args.startTime args.endTime = false := by
      rw [hstart, hend]
      simp [jsGe]
      omega
    have hlt : jsLt args.startTime (some now) = true := by
      rw [hstart]
      simpa [jsLt] using hnow
    unfold createBooking
    rw [if_neg (by simp [hge]), if_pos hlt]

/-- Witness for C9: concrete inverted and past intervals are rejected with
the corresponding errors on an empty store. -/
theorem createBooking_failfast_validation_witness :
    createBooking 0 ⟨1, 1, some 10, some 5, none⟩ ⟨true, true, true⟩
      (initStore [] 0) =
      (Except.error ⟨400, "End time must be after start time"⟩,
        initStore [] 0) ∧
    createBooking 3 ⟨1, 1, some 1, some 5, none⟩ ⟨true, true, true⟩
      (initStore [] 0) =
      (Except.error ⟨400, "Cannot book in the past"⟩, initStore [] 0) :=
  ⟨(createBooking_failfast_validation 0 10 5 ⟨1, 1, some 10, some 5, none⟩
      ⟨true, true, true⟩ (initStore [] 0) rfl rfl).1 (by decide),
   (createBooking_failfast_validation 3 1 5 ⟨1, 1, some 1, some 5, none⟩
      ⟨true, true, true⟩ (initStore [] 0) rfl rfl).2 (by decide) (by decide)⟩

/-- The transaction phase only ever fails with the race-lost conflict. -/
theorem txPhase_error_classified (args : BookingArgs) (tp : Option ℚ)
    (store : Store) :
    ∀ e : Err, (txPhase args tp store).1 = Except.error e →
      e = ⟨409, "This time slot was just booked by another user"⟩ := by
  intro e he
  unfold txPhase at he
  split at he
  · simp only [Except.error.injEq] at he
    exact he.symm
  · simp at he

/-- The storage phase of `createBooking` fails only with one of the five
storage-related errors — never with a validation error. -/
theorem storagePhase_error_classified (args : BookingArgs) (fx : FxOutcome)
    (store : Store) :
    ∀ e : Err, (storagePhase args fx store).1 = Except.error e →
      e.message = "Resource not found" ∨
      e.message = "Resource is not available for booking" ∨
      e.message = "This time slot is blocked" ∨
      e.message = "This time slot is already booked" ∨
      e.message = "This time slot was just booked by another user" := by
  intro e he
  unfold storagePhase at he
  split at he
  · simp only [Except.error.injEq] at he
    subst he
    left
    rfl
  · split at he
    · simp only [Except.error.injEq] at he
      subst he
      right; left
      rfl
    · split at he
      · simp only [Except.error.injEq] at he
        subst he
        right; right; left
        rfl
      · split at he
        · simp only [Except.error.injEq] at he
          subst he
          right; right; right; left
          rfl
        · dsimp only at he
          split at he
          · rename_i e2 s2 heq
            simp only [Except.error.injEq] at he
            subst he
            have := txPhase_error_classified args _ store e2
              (by rw [heq])
            right; right; right; right
            rw [this]
          · simp at he

/-- C10 counterexample: a start that parses to a past instant together
with an end that does not parse is rejected with `PastBooking` — the
second validation guard compares the valid start against `now` and fires,
so it is not true that both guards pass whenever start or end is
invalid. -/
theorem createBooking_invalid_end_counterexample :
    createBooking 100 ⟨1, 1, some 0, none, none⟩ ⟨true, true, true⟩
      (initStore [] 0) =
      (Except.error ⟨400, "Cannot book in the past"⟩, initStore [] 0) := by
  rfl

/-- C10 (amended): whenever start or end fails to parse, every comparison
involving the invalid date is false, so the `InvalidInterval` guard always
passes; if start is invalid the `PastBooking` guard passes too and
execution proceeds past validation to the storage phase, whose errors
never include `InvalidInterval` or `PastBooking`; if only end is invalid,
execution reaches the storage phase exactly when start is not in the past
— a past valid start is still rejected with `PastBooking`. -/
theorem createBooking_invalid_date_validation (now : Int)
    (args : BookingArgs) (fx : FxOutcome) (store : Store)
    (hinv : args.startTime = none ∨ args.endTime = none) :
    jsGe args.startTime args.endTime = false ∧
    (args.startTime = none →
      createBooking now args fx store = storagePhase args fx store) ∧
    (jsLt args.startTime (some now) = false →
      createBooking now args fx store = storagePhase args fx store) ∧
    (∀ e : Err, (storagePhase args fx store).1 = Except.error e →
      e.message ≠ "End time must be after start time" ∧
      e.message ≠ "Cannot book in the past") := by
  have hge : jsGe args.startTime args.endTime = false := by
    rcases hinv with h | h
    · rw [h]
      rfl
    · rw [h]
      cases args.startTime <;> rfl
  refine ⟨hge, ?_, ?_, ?_⟩
  · intro hs
    unfold createBooking
    rw [if_neg (by simp [hge]), if_neg (by rw [hs]; simp [jsLt])]
  · intro hlt
    unfold createBooking
    rw [if_neg (by simp [hge]), if_neg (by simp [hlt])]
  · intro e he
    rcases storagePhase_error_classified args fx store e he with
      h | h | h | h | h <;> rw [h] <;> exact ⟨by simp, by simp⟩

/-- Witness for C10 (amended): an invalid start date passes both guards on
an empty store and the call proceeds to the storage phase (failing there
with the resource lookup, not with a validation error). -/
theorem createBooking_invalid_date_validation_witness :
    jsGe (none : JsDate) (some 50) = false ∧
    createBooking 100 ⟨1, 1, none, some 50, none⟩ ⟨true, true, true⟩
      (initStore [] 0) =
      storagePhase ⟨1, 1, none, some 50, none⟩ ⟨true, true, true⟩
        (initStore [] 0) := by
  have h := createBooking_invalid_date_validation 100
    ⟨1, 1, none, some 50, none⟩ ⟨true, true, true⟩ (initStore [] 0)
    (Or.inl rfl)
  exact ⟨h.1, h.2.1 rfl⟩

end Bookingpms
